import Mathlib

/-!
# RAVL tree (rank-augmented AVL tree): embedding of `RAVL_tree.c`

A value of the C type `RAVL_Node*` is modelled as a finite tree: the null
pointer is `NULL`, and a pointer to a node is the record of that node's fields
together with the trees its `left` and `right` pointers lead to.  A function
that returns a pointer into the tree it was given returns the subtree rooted at
the node pointed to.  Keys, heights and sizes are C `int`s, modelled as `Int`
(the functions below only compare keys; heights and sizes are recomputed as
`1 + max` and `1 + sum` of fields bounded by the number of nodes).  The payload
`void* value` is an arbitrary type `V`.

A C function of non-void type whose control reaches the closing brace without
a `return` statement gives its caller no value: such a function is modelled
with result type `Option`, and `none` is "the end of the function was reached
without a return value".
-/

namespace RAVL

/-- The tree a `RAVL_Node*` points to (`struct ravl_node` of `RAVL_tree.h`). -/
inductive RAVL_Node (V : Type) where
  | NULL : RAVL_Node V
  | node (key : Int) (value : V) (height : Int) (size : Int)
      (left : RAVL_Node V) (right : RAVL_Node V) : RAVL_Node V
  deriving DecidableEq, Repr

open RAVL_Node

variable {V : Type}

/-- The sentinel `#define NOTIN -1` of `RAVL_tree.h`. -/
def NOTIN : Int := -1

/-! ## Source functions -/

/-- `height` of `RAVL_tree.c`, lines 17-22. -/
def height : RAVL_Node V → Int
  | NULL => 0
  | node _ _ h _ _ _ => h

/-- `size` of `RAVL_tree.c`, lines 27-32. -/
def size : RAVL_Node V → Int
  | NULL => 0
  | node _ _ _ s _ _ => s

/-- `updateHeight` of `RAVL_tree.c`, lines 37-46: the node with its `height`
field recomputed from the `height` fields of its children. -/
def updateHeight : RAVL_Node V → RAVL_Node V
  | NULL => NULL
  | node k v _ s l r =>
    let leftHeight := height l
    let rightHeight := height r
    node k v (1 + (if leftHeight > rightHeight then leftHeight else rightHeight)) s l r

/-- `updateSize` of `RAVL_tree.c`, lines 51-60: the node with its `size` field
recomputed from the `size` fields of its children. -/
def updateSize : RAVL_Node V → RAVL_Node V
  | NULL => NULL
  | node k v h _ l r =>
    let leftSize := match l with
      | NULL => 0
      | node _ _ _ ls _ _ => ls
    let rightSize := match r with
      | NULL => 0
      | node _ _ _ rs _ _ => rs
    node k v h (1 + leftSize + rightSize) l r

/-- `balanceFactor` of `RAVL_tree.c`.  The file defines it twice (lines 66-75
and 167-169); the two bodies agree on every non-null node, and on `NULL` this is
the second one, which returns 0 as the comment above the first one says. -/
def balanceFactor : RAVL_Node V → Int
  | NULL => 0
  | node _ _ _ _ l r => height l - height r

/-- `rightRotation` of `RAVL_tree.c`, lines 81-96. -/
def rightRotation : RAVL_Node V → RAVL_Node V
  | node k v h s (node tk tv th ts tl tr) r =>
    let n := updateSize (updateHeight (node k v h s tr r))
    updateSize (updateHeight (node tk tv th ts tl n))
  | n => n

/-- `leftRotation` of `RAVL_tree.c`, lines 99-114. -/
def leftRotation : RAVL_Node V → RAVL_Node V
  | node k v h s l (node tk tv th ts tl tr) =>
    let n := updateSize (updateHeight (node k v h s l tl))
    updateSize (updateHeight (node tk tv th ts n tr))
  | n => n

/-- `rightLeftRotation` of `RAVL_tree.c`, lines 117-123. -/
def rightLeftRotation : RAVL_Node V → RAVL_Node V
  | node k v h s l (node tk tv th ts tl tr) =>
    leftRotation (node k v h s l (rightRotation (node tk tv th ts tl tr)))
  | n => n

/-- `leftRightRotation` of `RAVL_tree.c`, lines 126-132. -/
def leftRightRotation : RAVL_Node V → RAVL_Node V
  | node k v h s (node tk tv th ts tl tr) r =>
    rightRotation (node k v h s (leftRotation (node tk tv th ts tl tr)) r)
  | n => n

/-- The `while` loop of `successor` (lines 139-142), started with `rTree` and
`pNode`: it walks down `left` pointers and keeps the last node left behind. -/
def successorLoop : RAVL_Node V → RAVL_Node V → RAVL_Node V
  | NULL, pNode => pNode
  | node _ _ _ _ NULL _, pNode => pNode
  | node k v h s (node lk lv lh ls ll lr) r, _ =>
    successorLoop (node lk lv lh ls ll lr) (node k v h s (node lk lv lh ls ll lr) r)

/-- `successor` of `RAVL_tree.c`, lines 135-146.  The function reads
`node->right` first, so it has no result on `NULL` (`none`). -/
def successor : RAVL_Node V → Option (RAVL_Node V)
  | NULL => none
  | node _ _ _ _ _ r =>
    let rTree := r
    let pNode := r
    match rTree with
    | NULL => some pNode
    | node _ _ _ _ _ _ => some (successorLoop rTree pNode)

/-- `createNode` of `RAVL_tree.c`, lines 151-164.  `mallocOk` says whether the
call of `malloc` succeeds; when it does not, the function returns `NULL`. -/
def createNode (mallocOk : Bool) (key : Int) (value : V) : RAVL_Node V :=
  if mallocOk then node key value 1 1 NULL NULL else NULL

/-- `balanceTree` of `RAVL_tree.c`, lines 172-201. -/
def balanceTree (n : RAVL_Node V) : RAVL_Node V :=
  let n1 := updateSize (updateHeight n)
  match n1 with
  | NULL => NULL
  | node k v h s l r =>
    let balance := balanceFactor (node k v h s l r)
    let balanceL := balanceFactor l
    let balanceR := balanceFactor r
    if balance > 1 ∧ balanceL > 0 then rightRotation (node k v h s l r)
    else if balance > 1 ∧ balanceL < 0 then leftRightRotation (node k v h s l r)
    else if balance < -1 ∧ balanceR < 0 then leftRotation (node k v h s l r)
    else if balance < -1 ∧ balanceR > 0 then rightLeftRotation (node k v h s l r)
    else node k v h s l r

/-- `search` of `RAVL_tree.c`, lines 229-242. -/
def search : RAVL_Node V → Int → RAVL_Node V
  | NULL, _ => NULL
  | node k v h s l r, key =>
    if k = key then node k v h s l r
    else if k > key then search l key
    else search r key

/-- `insert` of `RAVL_tree.c`, lines 244-262.  On `NULL` it returns what
`createNode` returns.  On a node whose key equals `key` it returns the node as
it is (line 260; the `value` field is not written).  In the two other branches
the result of the recursive call is stored in `node->right` or `node->left`
and control then reaches the closing brace of the function (line 262) without
a `return` statement: the call yields no value, whatever the recursive call
yielded. -/
def insert (mallocOk : Bool) : RAVL_Node V → Int → V → Option (RAVL_Node V)
  | NULL, key, value => some (createNode mallocOk key value)
  | node k v h s l r, key, value =>
    if k < key then
      match insert mallocOk r key value with
      | some _ => none
      | none => none
    else if k > key then
      match insert mallocOk l key value with
      | some _ => none
      | none => none
    else some (node k v h s l r)

/-- `delete` of `RAVL_tree.c`, lines 264-270.  The body looks the key up, and
when it is found computes `successor` of the node found; there is no `return`
statement, so control reaches the closing brace without a return value on
every input. -/
def delete (n : RAVL_Node V) (key : Int) : Option (RAVL_Node V) :=
  let nodeD := search n key
  match nodeD with
  | NULL => none
  | node _ _ _ _ _ _ =>
    let _successor_pNode := successor nodeD
    none

/-- `rank` of `RAVL_tree.c`, line 272. -/
def rank (_n : RAVL_Node V) (_key : Int) : Int := NOTIN

/-- `findRank` of `RAVL_tree.c`, line 274. -/
def findRank (_n : RAVL_Node V) (_rank : Int) : RAVL_Node V := NULL

/-! ## Specification vocabulary -/

/-- In-order sequence of the keys of a tree. -/
def keys : RAVL_Node V → List Int
  | NULL => []
  | node k _ _ _ l r => keys l ++ k :: keys r

/-- Every node of a tree, each given as the subtree rooted at it. -/
def nodes : RAVL_Node V → List (RAVL_Node V)
  | NULL => []
  | node k v h s l r => node k v h s l r :: (nodes l ++ nodes r)

/-- BST order (invariant 1): at every node, every key on the left is smaller
and every key on the right is larger than the key of the node. -/
def BST : RAVL_Node V → Prop
  | NULL => True
  | node k _ _ _ l r =>
    (∀ x ∈ keys l, x < k) ∧ (∀ x ∈ keys r, k < x) ∧ BST l ∧ BST r

/-- The tree of the scenarios: keys 5, 3, 8, 1, 4, 7, 9 (root 5, children 3
and 8, leaves 1, 4, 7, 9), every `height` and `size` field correct, the payload
of key `k` being `10 * k`. -/
def exampleTree : RAVL_Node Nat :=
  node 5 50 3 7
    (node 3 30 2 3 (node 1 10 1 1 NULL NULL) (node 4 40 1 1 NULL NULL))
    (node 8 80 2 3 (node 7 70 1 1 NULL NULL) (node 9 90 1 1 NULL NULL))

/-- In-order sequence of the (key, value) pairs of a tree. -/
def inorder : RAVL_Node V → List (Int × V)
  | NULL => []
  | node k v _ _ l r => inorder l ++ (k, v) :: inorder r

/-- Number of nodes of a tree. -/
def numNodes : RAVL_Node V → Nat
  | NULL => 0
  | node _ _ _ _ l r => 1 + numNodes l + numNodes r

/-- The tree `node->left` leads to (`NULL` for the null pointer). -/
def leftChild : RAVL_Node V → RAVL_Node V
  | NULL => NULL
  | node _ _ _ _ l _ => l

/-- The tree `node->right` leads to (`NULL` for the null pointer). -/
def rightChild : RAVL_Node V → RAVL_Node V
  | NULL => NULL
  | node _ _ _ _ _ r => r

/-- The stored `height` and `size` of this node are correct (invariants 2 and
3 at this node): 1 + the larger of the children's heights, and 1 + the sum of
the children's sizes. -/
def fieldsOk : RAVL_Node V → Prop
  | NULL => True
  | node _ _ h s l r => h = 1 + max (height l) (height r) ∧ s = 1 + size l + size r

/-- Every node of the tree has correct stored `height` and `size`. -/
def metricsOk : RAVL_Node V → Prop
  | NULL => True
  | node k v h s l r => fieldsOk (node k v h s l r) ∧ metricsOk l ∧ metricsOk r

/-- Every node of the tree other than its root has correct stored `height`
and `size`. -/
def belowRootOk : RAVL_Node V → Prop
  | NULL => True
  | node _ _ _ _ l r => metricsOk l ∧ metricsOk r

/-- AVL balance (invariant 4): at every node the heights of the two subtrees
differ by at most 1. -/
def balanced : RAVL_Node V → Prop
  | NULL => True
  | node _ _ _ _ l r =>
    (-1 ≤ height l - height r ∧ height l - height r ≤ 1) ∧ balanced l ∧ balanced r

/-- The leftmost node of a tree (`NULL` for the empty tree). -/
def leftmost : RAVL_Node V → RAVL_Node V
  | NULL => NULL
  | node k v h s NULL r => node k v h s NULL r
  | node _ _ _ _ (node lk lv lh ls ll lr) _ => leftmost (node lk lv lh ls ll lr)

/-- The parent of the leftmost node of the tree `t`, where `p` is the parent
of the root of `t`. -/
def leftmostParent : RAVL_Node V → RAVL_Node V → RAVL_Node V
  | NULL, p => p
  | node _ _ _ _ NULL _, p => p
  | node k v h s (node lk lv lh ls ll lr) r, _ =>
    leftmostParent (node lk lv lh ls ll lr) (node k v h s (node lk lv lh ls ll lr) r)

/-- The scenario tree after keys 7, 9 and 8 have been removed from the right
of the root and before the root is rebalanced: root 5 (stored height 3 and
size 5 from before the last removal), left child 3 with leaves 1 and 4, no
right child. -/
def deletionTree : RAVL_Node Nat :=
  node 5 50 3 5
    (node 3 30 2 3 (node 1 10 1 1 NULL NULL) (node 4 40 1 1 NULL NULL))
    NULL

/-- The scenario tree with the stored height and size of the root wrong. -/
def staleRootTree : RAVL_Node Nat :=
  node 5 50 0 0
    (node 3 30 2 3 (node 1 10 1 1 NULL NULL) (node 4 40 1 1 NULL NULL))
    (node 8 80 2 3 (node 7 70 1 1 NULL NULL) (node 9 90 1 1 NULL NULL))

/-- The mirror image of `deletionTree`: root 5 with no left child and right
child 8 with leaves 7 and 9. -/
def deletionTreeMirror : RAVL_Node Nat :=
  node 5 50 3 5
    NULL
    (node 8 80 2 3 (node 7 70 1 1 NULL NULL) (node 9 90 1 1 NULL NULL))

/-! ## Theorems -/

/-- C1: on a tree in BST order, `search` returns a node of the tree whose key
is `k` when `k` occurs in the tree, and `NULL` when it does not. -/
theorem search_correct (t : RAVL_Node V) (k : Int) (hbst : BST t) :
    (k ∈ keys t →
      search t k ∈ nodes t ∧ ∃ v h s l r, search t k = node k v h s l r) ∧
    (k ∉ keys t → search t k = NULL) := by
  induction t with
  | NULL => simp [keys, search]
  | node key v h s l r ihl ihr =>
    obtain ⟨hl, hr, hbl, hbr⟩ := hbst
    have il := ihl hbl
    have ir := ihr hbr
    by_cases hk : key = k
    · subst hk
      simp [search, keys, nodes]
    · by_cases hgt : key > k
      · have hnr : k ∉ keys r := fun hmem => by
          have := hr k hmem
          omega
        simp only [search, keys, nodes, hk, hgt, if_true, if_false, List.mem_append,
          List.mem_cons]
        constructor
        · intro hmem
          have hin : k ∈ keys l := by
            rcases hmem with h1 | h1 | h1
            · exact h1
            · exact absurd h1.symm hk
            · exact absurd h1 hnr
          obtain ⟨h1, h2⟩ := il.1 hin
          exact ⟨Or.inr (Or.inl h1), h2⟩
        · intro hmem
          exact il.2 (fun h1 => hmem (Or.inl h1))
      · have hnl : k ∉ keys l := fun hmem => by
          have := hl k hmem
          omega
        simp only [search, keys, nodes, hk, hgt, if_false, List.mem_append,
          List.mem_cons]
        constructor
        · intro hmem
          have hin : k ∈ keys r := by
            rcases hmem with h1 | h1 | h1
            · exact absurd h1 hnl
            · exact absurd h1.symm hk
            · exact h1
          obtain ⟨h1, h2⟩ := ir.1 hin
          exact ⟨Or.inr (Or.inr h1), h2⟩
        · intro hmem
          exact ir.2 (fun h1 => hmem (Or.inr (Or.inr h1)))

/-- C1, at the scenario tree: it is in BST order, and `search` finds key 5
there. -/
theorem search_correct_witness :
    BST exampleTree ∧
    ((5 ∈ keys exampleTree →
      search exampleTree 5 ∈ nodes exampleTree ∧
        ∃ v h s l r, search exampleTree 5 = node 5 v h s l r) ∧
    (5 ∉ keys exampleTree → search exampleTree 5 = NULL)) :=
  ⟨by simp [BST, keys, exampleTree],
   search_correct exampleTree 5 (by simp [BST, keys, exampleTree])⟩

/-- C2: when the allocation succeeds, `insert` on the empty tree returns one
node with key `k`, value `v`, height 1, size 1 and both children `NULL`. -/
theorem insert_empty (k : Int) (v : V) :
    insert true NULL k v = some (node k v 1 1 NULL NULL) := by
  simp [insert, createNode]

/-! ### What `insert`, `delete` and `rank` compute -/

/-- On a node whose key is `key`, `insert` returns the node as it is: the
stored value is kept and `value` is dropped. -/
theorem insert_key_at_root (ok : Bool) (k : Int) (v : V) (h s : Int)
    (l r : RAVL_Node V) (value : V) :
    insert ok (node k v h s l r) k value = some (node k v h s l r) := by
  simp [insert]

/-- On a node whose key differs from `key`, `insert` reaches the end of the
function without a return value. -/
theorem insert_key_off_root (ok : Bool) (k : Int) (v : V) (h s : Int)
    (l r : RAVL_Node V) (key : Int) (value : V) (hne : k ≠ key) :
    insert ok (node k v h s l r) key value = none := by
  unfold insert
  by_cases h1 : k < key
  · simp only [h1, if_true]
    cases insert ok r key value <;> rfl
  · have h2 : k > key := by omega
    simp only [h1, h2, if_true, if_false]
    cases insert ok l key value <;> rfl

/-- On every input `delete` reaches the end of the function without a return
value. -/
theorem delete_no_value (n : RAVL_Node V) (key : Int) : delete n key = none := by
  unfold delete
  cases search n key <;> rfl

/-- On every input `rank` returns `NOTIN`. -/
theorem rank_eq_NOTIN (n : RAVL_Node V) (key : Int) : rank n key = -1 := rfl

/-! ### The documented behaviour, evaluated on concrete inputs -/

/-- C3: inserting key 5 with value 10 into the empty tree and then key 5 with
value 20 returns the node still holding value 10, and that is the node
`search` for 5 returns; inserting the absent key 7 instead returns no value. -/
theorem insert_then_search_keeps_old_value :
    ((insert true (NULL : RAVL_Node Nat) 5 10).bind (fun t => insert true t 5 20)
      = some (node 5 10 1 1 NULL NULL)) ∧
    search (node 5 (10 : Nat) 1 1 NULL NULL) 5 = node 5 10 1 1 NULL NULL ∧
    insert true (node 5 (10 : Nat) 1 1 NULL NULL) 7 20 = none := by
  refine ⟨?_, ?_, ?_⟩
  · simp [insert, createNode]
  · simp [search]
  · exact insert_key_off_root true 5 10 1 1 NULL NULL 7 20 (by decide)

/-- C4: in the two-node tree with root 5 and left child 3, re-inserting the
present key 3 returns no value (the child is returned by the recursive call
with its old value 30, and the call at the root ends without `return`). -/
theorem insert_present_below_root_no_value :
    insert true (node 3 (30 : Nat) 1 1 NULL NULL) 3 40
      = some (node 3 30 1 1 NULL NULL) ∧
    insert true (node 5 (50 : Nat) 2 2 (node 3 30 1 1 NULL NULL) NULL) 3 40 = none := by
  constructor
  · exact insert_key_at_root true 3 30 1 1 NULL NULL 40
  · exact insert_key_off_root true 5 50 2 2 _ NULL 3 40 (by decide)

/-- C5: inserting 1 and then 2 into the empty tree: the first call returns the
node of key 1, the second returns no value, so no tree of height 2 holding
1, 2, 3 is ever returned. -/
theorem insert_increasing_no_value :
    insert true (NULL : RAVL_Node Nat) 1 0 = some (node 1 0 1 1 NULL NULL) ∧
    insert true (node 1 (0 : Nat) 1 1 NULL NULL) 2 0 = none ∧
    (((insert true (NULL : RAVL_Node Nat) 1 0).bind (fun t => insert true t 2 0)).bind
      (fun t => insert true t 3 0)) = none := by
  have h2 : insert true (node 1 (0 : Nat) 1 1 NULL NULL) 2 0 = none :=
    insert_key_off_root true 1 0 1 1 NULL NULL 2 0 (by decide)
  refine ⟨by simp [insert, createNode], h2, ?_⟩
  have h1 : insert true (NULL : RAVL_Node Nat) 1 0 = some (node 1 0 1 1 NULL NULL) := by
    simp [insert, createNode]
  rw [h1, Option.some_bind, h2]
  rfl

/-- C6: inserting the absent key 3 into the one-node tree of key 5 (size 1)
returns no value, hence no tree of size 2. -/
theorem insert_absent_no_size :
    size (node 5 (50 : Nat) 1 1 NULL NULL) = 1 ∧
    3 ∉ keys (node 5 (50 : Nat) 1 1 NULL NULL) ∧
    (insert true (node 5 (50 : Nat) 1 1 NULL NULL) 3 30).map size = none := by
  refine ⟨rfl, by simp [keys], ?_⟩
  rw [insert_key_off_root true 5 50 1 1 NULL NULL 3 30 (by decide)]
  rfl

/-- C7: the one-node tree of key 5 has a strictly increasing in-order key
sequence, and inserting key 7 returns no value, hence no tree with keys 5, 7. -/
theorem insert_absent_no_keys :
    (keys (node 5 (50 : Nat) 1 1 NULL NULL)).Pairwise (· < ·) ∧
    (insert true (node 5 (50 : Nat) 1 1 NULL NULL) 7 70).map keys = none := by
  refine ⟨by simp [keys], ?_⟩
  rw [insert_key_off_root true 5 50 1 1 NULL NULL 7 70 (by decide)]
  rfl

/-- C8: deleting the present key 8 from the one-node tree of key 8, and from
the scenario tree, returns no value. -/
theorem delete_present_no_value :
    8 ∈ keys (node 8 (80 : Nat) 1 1 NULL NULL) ∧
    delete (node 8 (80 : Nat) 1 1 NULL NULL) 8 = none ∧
    8 ∈ keys exampleTree ∧ delete exampleTree 8 = none := by
  refine ⟨by simp [keys], delete_no_value _ 8, by simp [keys, exampleTree],
    delete_no_value _ 8⟩

/-- C9: deleting key 42 from the empty tree returns no value, not the empty
tree; so does deleting the absent key 42 from the scenario tree. -/
theorem delete_absent_no_value :
    delete (NULL : RAVL_Node Nat) 42 = none ∧
    delete (NULL : RAVL_Node Nat) 42 ≠ some NULL ∧
    42 ∉ keys exampleTree ∧ delete exampleTree 42 = none := by
  refine ⟨delete_no_value _ 42, ?_, by simp [keys, exampleTree], delete_no_value _ 42⟩
  rw [delete_no_value]
  exact fun h => Option.noConfusion h

/-- C10: in the scenario tree three keys are smaller than 5 and `rank` of 5
is -1; in the one-node tree of key 5 no key is smaller and `rank` of 5 is
-1. -/
theorem rank_present_is_NOTIN :
    5 ∈ keys exampleTree ∧
    ((keys exampleTree).filter (fun x => x < 5)).length = 3 ∧
    rank exampleTree 5 = -1 ∧
    ((keys (node 5 (50 : Nat) 1 1 NULL NULL)).filter (fun x => x < 5)).length = 0 ∧
    rank (node 5 (50 : Nat) 1 1 NULL NULL) 5 = -1 := by
  refine ⟨by simp [keys, exampleTree], by decide, rfl, by decide, rfl⟩

/-- C11: for a key that is not a key of the tree (the empty tree included),
`rank` returns the sentinel `NOTIN`, which is -1. -/
theorem rank_absent (t : RAVL_Node V) (k : Int) (_habs : k ∉ keys t) :
    rank t k = NOTIN ∧ NOTIN = -1 :=
  ⟨rfl, rfl⟩

/-- C11, at the scenario tree and the absent key 100, and at the empty tree. -/
theorem rank_absent_witness :
    (100 ∉ keys exampleTree ∧ rank exampleTree 100 = NOTIN ∧ NOTIN = -1) ∧
    ((42 : Int) ∉ keys (NULL : RAVL_Node Nat) ∧
      rank (NULL : RAVL_Node Nat) 42 = NOTIN ∧ NOTIN = -1) :=
  ⟨⟨by simp [keys, exampleTree], rank_absent exampleTree 100 (by simp [keys, exampleTree])⟩,
   ⟨by simp [keys], rank_absent NULL 42 (by simp [keys])⟩⟩

/-! ### `findRank`, `balanceTree` and `successor` on concrete inputs -/

/-- On every input `findRank` returns `NULL`. -/
theorem findRank_eq_NULL (n : RAVL_Node V) (r : Int) : findRank n r = NULL := rfl

/-- C12: key 5 is present in the one-node tree of key 5 and in the scenario
tree, and `findRank` of `rank` of 5 is `NULL` in both, not the node of key
5. -/
theorem findRank_rank_is_NULL :
    5 ∈ keys (node 5 (50 : Nat) 1 1 NULL NULL) ∧
    findRank (node 5 (50 : Nat) 1 1 NULL NULL)
      (rank (node 5 (50 : Nat) 1 1 NULL NULL) 5) = NULL ∧
    5 ∈ keys exampleTree ∧
    findRank exampleTree (rank exampleTree 5) = NULL := by
  refine ⟨by simp [keys], rfl, by simp [keys, exampleTree], rfl⟩

/-- C13: in the scenario tree, of size 7 with smallest key 1 and largest key
9, `findRank` returns `NULL` for the ranks 0 and 6, which lie in range; so it
does for rank 0 in the one-node tree of key 5. -/
theorem findRank_in_range_is_NULL :
    size exampleTree = 7 ∧
    keys exampleTree = [1, 3, 4, 5, 7, 8, 9] ∧
    findRank exampleTree 0 = NULL ∧
    findRank exampleTree 6 = NULL ∧
    size (node 5 (50 : Nat) 1 1 NULL NULL) = 1 ∧
    findRank (node 5 (50 : Nat) 1 1 NULL NULL) 0 = NULL := by
  refine ⟨rfl, by simp [keys, exampleTree], rfl, rfl, rfl, rfl⟩

/-! ### Rotations -/

/-- The balance factor of a node is the difference of its children's
heights. -/
theorem balanceFactor_node (k : Int) (v : V) (h s : Int) (l r : RAVL_Node V) :
    balanceFactor (node k v h s l r) = height l - height r := rfl

/-- Refreshing both metrics of a node: the `updateHeight`, `updateSize` pair
of calls the rotations and `balanceTree` make. -/
theorem refresh_node (k : Int) (v : V) (h s : Int) (l r : RAVL_Node V) :
    updateSize (updateHeight (node k v h s l r))
      = node k v (1 + max (height l) (height r)) (1 + size l + size r) l r := by
  have hmax : (if height l > height r then height l else height r)
      = max (height l) (height r) := by
    split <;> omega
  cases l <;> cases r <;> simp [updateHeight, updateSize, size, hmax]

/-- Shape of `rightRotation` on a node that has a left child. -/
theorem rightRotation_node (k : Int) (v : V) (h s : Int) (tk : Int) (tv : V)
    (th ts : Int) (tl tr r : RAVL_Node V) :
    rightRotation (node k v h s (node tk tv th ts tl tr) r)
      = node tk tv
          (1 + max (height tl) (1 + max (height tr) (height r)))
          (1 + size tl + (1 + size tr + size r)) tl
          (node k v (1 + max (height tr) (height r)) (1 + size tr + size r) tr r) := by
  simp only [rightRotation, refresh_node, height, size]

/-- Shape of `leftRotation` on a node that has a right child. -/
theorem leftRotation_node (k : Int) (v : V) (h s : Int) (tk : Int) (tv : V)
    (th ts : Int) (l tl tr : RAVL_Node V) :
    leftRotation (node k v h s l (node tk tv th ts tl tr))
      = node tk tv
          (1 + max (1 + max (height l) (height tl)) (height tr))
          (1 + (1 + size l + size tl) + size tr)
          (node k v (1 + max (height l) (height tl)) (1 + size l + size tl) l tl) tr := by
  simp only [leftRotation, refresh_node, height, size]

/-- The rotation `rightRotation` keeps the in-order sequence. -/
theorem inorder_rightRotation (t : RAVL_Node V) : inorder (rightRotation t) = inorder t := by
  rcases t with _ | ⟨k, v, h, s, l, r⟩
  · rfl
  · rcases l with _ | ⟨tk, tv, th, ts, tl, tr⟩
    · rfl
    · rw [rightRotation_node]
      simp [inorder]

/-- The rotation `leftRotation` keeps the in-order sequence. -/
theorem inorder_leftRotation (t : RAVL_Node V) : inorder (leftRotation t) = inorder t := by
  rcases t with _ | ⟨k, v, h, s, l, r⟩
  · rfl
  · rcases r with _ | ⟨tk, tv, th, ts, tl, tr⟩
    · rfl
    · rw [leftRotation_node]
      simp [inorder]

/-- The rotation `leftRightRotation` keeps the in-order sequence. -/
theorem inorder_leftRightRotation (t : RAVL_Node V) :
    inorder (leftRightRotation t) = inorder t := by
  rcases t with _ | ⟨k, v, h, s, l, r⟩
  · rfl
  · rcases l with _ | ⟨tk, tv, th, ts, tl, tr⟩
    · rfl
    · simp only [leftRightRotation]
      rw [inorder_rightRotation]
      simp only [inorder]
      rw [inorder_leftRotation]
      simp [inorder]

/-- The rotation `rightLeftRotation` keeps the in-order sequence. -/
theorem inorder_rightLeftRotation (t : RAVL_Node V) :
    inorder (rightLeftRotation t) = inorder t := by
  rcases t with _ | ⟨k, v, h, s, l, r⟩
  · rfl
  · rcases r with _ | ⟨tk, tv, th, ts, tl, tr⟩
    · rfl
    · simp only [rightLeftRotation]
      rw [inorder_leftRotation]
      simp only [inorder]
      rw [inorder_rightRotation]
      simp [inorder]

/-- The keys of a tree are the first components of its in-order sequence. -/
theorem keys_eq_map_inorder (t : RAVL_Node V) : keys t = (inorder t).map Prod.fst := by
  induction t with
  | NULL => rfl
  | node k v h s l r ihl ihr => simp [keys, inorder, ihl, ihr]

/-- BST order is the same as a strictly increasing in-order key sequence. -/
theorem BST_iff_sorted (t : RAVL_Node V) : BST t ↔ (keys t).Pairwise (· < ·) := by
  induction t with
  | NULL => simp [BST, keys]
  | node k v h s l r ihl ihr =>
    simp only [BST, keys, List.pairwise_append, List.pairwise_cons, List.mem_cons, ihl, ihr]
    constructor
    · rintro ⟨hl, hr, pl, pr⟩
      refine ⟨pl, ⟨hr, pr⟩, ?_⟩
      intro a ha b hb
      rcases hb with hb | hb
      · subst hb
        exact hl a ha
      · exact lt_trans (hl a ha) (hr b hb)
    · rintro ⟨pl, ⟨hr, pr⟩, hx⟩
      exact ⟨fun a ha => hx a ha k (Or.inl rfl), hr, pl, pr⟩

/-- A tree with the in-order sequence of a tree in BST order is in BST order
and has the same keys. -/
theorem BST_of_inorder_eq (t u : RAVL_Node V) (he : inorder u = inorder t) :
    keys u = keys t ∧ (BST t → BST u) := by
  have hk : keys u = keys t := by rw [keys_eq_map_inorder, keys_eq_map_inorder, he]
  refine ⟨hk, fun hb => ?_⟩
  rw [BST_iff_sorted, hk]
  exact (BST_iff_sorted t).1 hb

/-- C16: each of the four rotations returns a tree with the same in-order
sequence of (key, value) pairs as its input; hence it has the same keys and is
in BST order whenever the input is. -/
theorem rotations_preserve_inorder (t : RAVL_Node V) :
    (inorder (rightRotation t) = inorder t ∧
     inorder (leftRotation t) = inorder t ∧
     inorder (leftRightRotation t) = inorder t ∧
     inorder (rightLeftRotation t) = inorder t) ∧
    (keys (rightRotation t) = keys t ∧
     keys (leftRotation t) = keys t ∧
     keys (leftRightRotation t) = keys t ∧
     keys (rightLeftRotation t) = keys t) ∧
    (BST t →
      BST (rightRotation t) ∧ BST (leftRotation t) ∧
      BST (leftRightRotation t) ∧ BST (rightLeftRotation t)) := by
  have h1 := BST_of_inorder_eq t _ (inorder_rightRotation t)
  have h2 := BST_of_inorder_eq t _ (inorder_leftRotation t)
  have h3 := BST_of_inorder_eq t _ (inorder_leftRightRotation t)
  have h4 := BST_of_inorder_eq t _ (inorder_rightLeftRotation t)
  exact ⟨⟨inorder_rightRotation t, inorder_leftRotation t, inorder_leftRightRotation t,
      inorder_rightLeftRotation t⟩,
    ⟨h1.1, h2.1, h3.1, h4.1⟩,
    fun hb => ⟨h1.2 hb, h2.2 hb, h3.2 hb, h4.2 hb⟩⟩

/-- C16, at the scenario tree, which is in BST order. -/
theorem rotations_preserve_inorder_witness :
    BST exampleTree ∧
    BST (rightRotation exampleTree) ∧ BST (leftRotation exampleTree) ∧
    BST (leftRightRotation exampleTree) ∧ BST (rightLeftRotation exampleTree) :=
  ⟨by simp [BST, keys, exampleTree],
   (rotations_preserve_inorder exampleTree).2.2 (by simp [BST, keys, exampleTree])⟩

/-- In a tree with correct metrics the stored size of the root is the number
of nodes. -/
theorem size_eq_numNodes (t : RAVL_Node V) (hm : metricsOk t) : size t = (numNodes t : Int) := by
  induction t with
  | NULL => rfl
  | node k v h s l r ihl ihr =>
    obtain ⟨⟨_, hs⟩, hl, hr⟩ := hm
    have e1 := ihl hl
    have e2 := ihr hr
    simp only [size, numNodes]
    push_cast
    omega

/-- The rotation `rightRotation` keeps the number of nodes. -/
theorem numNodes_rightRotation (t : RAVL_Node V) :
    numNodes (rightRotation t) = numNodes t := by
  rcases t with _ | ⟨k, v, h, s, l, r⟩
  · rfl
  · rcases l with _ | ⟨tk, tv, th, ts, tl, tr⟩
    · rfl
    · rw [rightRotation_node]
      simp only [numNodes]
      omega

/-- The rotation `leftRotation` keeps the number of nodes. -/
theorem numNodes_leftRotation (t : RAVL_Node V) :
    numNodes (leftRotation t) = numNodes t := by
  rcases t with _ | ⟨k, v, h, s, l, r⟩
  · rfl
  · rcases r with _ | ⟨tk, tv, th, ts, tl, tr⟩
    · rfl
    · rw [leftRotation_node]
      simp only [numNodes]
      omega

/-- After `rightRotation` every node has correct metrics, when every node
below the root had and the left child is present or the root had too. -/
theorem metricsOk_rightRotation (t : RAVL_Node V) (hb : belowRootOk t)
    (hc : leftChild t ≠ NULL ∨ fieldsOk t) : metricsOk (rightRotation t) := by
  rcases t with _ | ⟨k, v, h, s, l, r⟩
  · trivial
  · rcases l with _ | ⟨tk, tv, th, ts, tl, tr⟩
    · rcases hc with hc | hc
      · exact absurd rfl hc
      · exact ⟨hc, hb.1, hb.2⟩
    · obtain ⟨⟨_, hl1, hl2⟩, hr⟩ := hb
      rw [rightRotation_node]
      simp only [metricsOk, fieldsOk, height, size, and_self, true_and]
      exact ⟨hl1, hl2, hr⟩

/-- After `leftRotation` every node has correct metrics, when every node
below the root had and the right child is present or the root had too. -/
theorem metricsOk_leftRotation (t : RAVL_Node V) (hb : belowRootOk t)
    (hc : rightChild t ≠ NULL ∨ fieldsOk t) : metricsOk (leftRotation t) := by
  rcases t with _ | ⟨k, v, h, s, l, r⟩
  · trivial
  · rcases r with _ | ⟨tk, tv, th, ts, tl, tr⟩
    · rcases hc with hc | hc
      · exact absurd rfl hc
      · exact ⟨hc, hb.1, hb.2⟩
    · obtain ⟨hl, _, hr1, hr2⟩ := hb
      rw [leftRotation_node]
      simp only [metricsOk, fieldsOk, height, size, and_self, true_and]
      exact ⟨⟨hl, hr1⟩, hr2⟩

/-- A single rotation of a node is a node. -/
theorem rotation_ne_NULL (k : Int) (v : V) (h s : Int) (l r : RAVL_Node V) :
    leftRotation (node k v h s l r) ≠ NULL ∧ rightRotation (node k v h s l r) ≠ NULL := by
  constructor
  · rcases r with _ | ⟨tk, tv, th, ts, tl, tr⟩
    · simp [leftRotation]
    · rw [leftRotation_node]
      simp
  · rcases l with _ | ⟨tk, tv, th, ts, tl, tr⟩
    · simp [rightRotation]
    · rw [rightRotation_node]
      simp

/-- After `leftRightRotation` every node has correct metrics and the number
of nodes is kept, under the conditions of `metricsOk_rightRotation`. -/
theorem metricsOk_leftRightRotation (t : RAVL_Node V) (hb : belowRootOk t)
    (hc : leftChild t ≠ NULL ∨ fieldsOk t) :
    metricsOk (leftRightRotation t) ∧ numNodes (leftRightRotation t) = numNodes t := by
  rcases t with _ | ⟨k, v, h, s, l, r⟩
  · exact ⟨trivial, rfl⟩
  · rcases l with _ | ⟨tk, tv, th, ts, tl, tr⟩
    · rcases hc with hc | hc
      · exact absurd rfl hc
      · exact ⟨⟨hc, hb.1, hb.2⟩, rfl⟩
    · obtain ⟨hl, hr⟩ := hb
      have hl2 : metricsOk (leftRotation (node tk tv th ts tl tr)) :=
        metricsOk_leftRotation _ ⟨hl.2.1, hl.2.2⟩ (Or.inr hl.1)
      simp only [leftRightRotation]
      constructor
      · apply metricsOk_rightRotation
        · exact ⟨hl2, hr⟩
        · exact Or.inl (rotation_ne_NULL tk tv th ts tl tr).1
      · rw [numNodes_rightRotation]
        simp only [numNodes, numNodes_leftRotation]

/-- After `rightLeftRotation` every node has correct metrics and the number
of nodes is kept, under the conditions of `metricsOk_leftRotation`. -/
theorem metricsOk_rightLeftRotation (t : RAVL_Node V) (hb : belowRootOk t)
    (hc : rightChild t ≠ NULL ∨ fieldsOk t) :
    metricsOk (rightLeftRotation t) ∧ numNodes (rightLeftRotation t) = numNodes t := by
  rcases t with _ | ⟨k, v, h, s, l, r⟩
  · exact ⟨trivial, rfl⟩
  · rcases r with _ | ⟨tk, tv, th, ts, tl, tr⟩
    · rcases hc with hc | hc
      · exact absurd rfl hc
      · exact ⟨⟨hc, hb.1, hb.2⟩, rfl⟩
    · obtain ⟨hl, hr⟩ := hb
      have hr2 : metricsOk (rightRotation (node tk tv th ts tl tr)) :=
        metricsOk_rightRotation _ ⟨hr.2.1, hr.2.2⟩ (Or.inr hr.1)
      simp only [rightLeftRotation]
      constructor
      · apply metricsOk_leftRotation
        · exact ⟨hl, hr2⟩
        · exact Or.inl (rotation_ne_NULL tk tv th ts tl tr).2
      · rw [numNodes_leftRotation]
        simp only [numNodes, numNodes_rightRotation]

/-- C17, as stated, fails on a one-node tree whose root stores height 7 and
size 7: no node lies below the root, the four rotations return the tree as it
is, and the root of the result has neither correct metrics nor the number of
nodes as its size. -/
theorem rotations_keep_stale_root :
    belowRootOk (node 5 (50 : Nat) 7 7 NULL NULL) ∧
    ¬ metricsOk (rightRotation (node 5 (50 : Nat) 7 7 NULL NULL)) ∧
    ¬ metricsOk (leftRotation (node 5 (50 : Nat) 7 7 NULL NULL)) ∧
    ¬ metricsOk (leftRightRotation (node 5 (50 : Nat) 7 7 NULL NULL)) ∧
    ¬ metricsOk (rightLeftRotation (node 5 (50 : Nat) 7 7 NULL NULL)) ∧
    size (rightRotation (node 5 (50 : Nat) 7 7 NULL NULL))
      ≠ (numNodes (node 5 (50 : Nat) 7 7 NULL NULL) : Int) := by
  simp [belowRootOk, metricsOk, fieldsOk, rightRotation, leftRotation, leftRightRotation,
    rightLeftRotation, height, size, numNodes]

/-- C17, amended: when every node other than the root has correct stored
height and size, and the child the rotation needs is present (or the root has
correct stored height and size too), each of the four rotations returns a tree
in which every node has correct stored height and size, and the size of the
returned root is the number of nodes of the input. -/
theorem rotations_restore_metrics (t : RAVL_Node V) (hb : belowRootOk t) :
    ((leftChild t ≠ NULL ∨ fieldsOk t) →
      (metricsOk (rightRotation t) ∧ size (rightRotation t) = (numNodes t : Int)) ∧
      (metricsOk (leftRightRotation t) ∧ size (leftRightRotation t) = (numNodes t : Int))) ∧
    ((rightChild t ≠ NULL ∨ fieldsOk t) →
      (metricsOk (leftRotation t) ∧ size (leftRotation t) = (numNodes t : Int)) ∧
      (metricsOk (rightLeftRotation t) ∧ size (rightLeftRotation t) = (numNodes t : Int))) := by
  constructor
  · intro hc
    have h1 := metricsOk_rightRotation t hb hc
    have h2 := metricsOk_leftRightRotation t hb hc
    refine ⟨⟨h1, ?_⟩, ⟨h2.1, ?_⟩⟩
    · rw [size_eq_numNodes _ h1, numNodes_rightRotation]
    · rw [size_eq_numNodes _ h2.1, h2.2]
  · intro hc
    have h1 := metricsOk_leftRotation t hb hc
    have h2 := metricsOk_rightLeftRotation t hb hc
    refine ⟨⟨h1, ?_⟩, ⟨h2.1, ?_⟩⟩
    · rw [size_eq_numNodes _ h1, numNodes_leftRotation]
    · rw [size_eq_numNodes _ h2.1, h2.2]

/-- C17, amended, at the scenario tree with wrong stored height and size at
the root: both children are present and every node below the root is
correct. -/
theorem rotations_restore_metrics_witness :
    belowRootOk staleRootTree ∧ ¬ fieldsOk staleRootTree ∧
    leftChild staleRootTree ≠ NULL ∧ rightChild staleRootTree ≠ NULL ∧
    ((metricsOk (rightRotation staleRootTree) ∧
        size (rightRotation staleRootTree) = (numNodes staleRootTree : Int)) ∧
      (metricsOk (leftRightRotation staleRootTree) ∧
        size (leftRightRotation staleRootTree) = (numNodes staleRootTree : Int))) ∧
    ((metricsOk (leftRotation staleRootTree) ∧
        size (leftRotation staleRootTree) = (numNodes staleRootTree : Int)) ∧
      (metricsOk (rightLeftRotation staleRootTree) ∧
        size (rightLeftRotation staleRootTree) = (numNodes staleRootTree : Int))) :=
  have hb : belowRootOk staleRootTree := by
    simp [belowRootOk, metricsOk, fieldsOk, staleRootTree, height, size]
  ⟨hb,
   by simp [fieldsOk, staleRootTree, height, size],
   by simp [leftChild, staleRootTree],
   by simp [rightChild, staleRootTree],
   (rotations_restore_metrics staleRootTree hb).1
     (Or.inl (by simp [leftChild, staleRootTree])),
   (rotations_restore_metrics staleRootTree hb).2
     (Or.inl (by simp [rightChild, staleRootTree]))⟩

/-- C18: `rightRotation` and `leftRightRotation` return their input unchanged
when the node is `NULL` or has no left child, and `leftRotation` and
`rightLeftRotation` return their input unchanged when the node is `NULL` or
has no right child. -/
theorem rotations_noop (n : RAVL_Node V) :
    ((n = NULL ∨ leftChild n = NULL) → rightRotation n = n ∧ leftRightRotation n = n) ∧
    ((n = NULL ∨ rightChild n = NULL) → leftRotation n = n ∧ rightLeftRotation n = n) := by
  constructor
  · intro hc
    rcases n with _ | ⟨k, v, h, s, l, r⟩
    · exact ⟨rfl, rfl⟩
    · rcases l with _ | ⟨tk, tv, th, ts, tl, tr⟩
      · exact ⟨rfl, rfl⟩
      · rcases hc with hc | hc
        · exact RAVL_Node.noConfusion hc
        · exact RAVL_Node.noConfusion hc
  · intro hc
    rcases n with _ | ⟨k, v, h, s, l, r⟩
    · exact ⟨rfl, rfl⟩
    · rcases r with _ | ⟨tk, tv, th, ts, tl, tr⟩
      · exact ⟨rfl, rfl⟩
      · rcases hc with hc | hc
        · exact RAVL_Node.noConfusion hc
        · exact RAVL_Node.noConfusion hc

/-- C18, at `deletionTree` (no right child) and `deletionTreeMirror` (no left
child). -/
theorem rotations_noop_witness :
    (rightChild deletionTree = NULL ∧
      leftRotation deletionTree = deletionTree ∧
      rightLeftRotation deletionTree = deletionTree) ∧
    (leftChild deletionTreeMirror = NULL ∧
      rightRotation deletionTreeMirror = deletionTreeMirror ∧
      leftRightRotation deletionTreeMirror = deletionTreeMirror) :=
  ⟨⟨rfl, (rotations_noop deletionTree).2 (Or.inr rfl)⟩,
   ⟨rfl, (rotations_noop deletionTreeMirror).1 (Or.inr rfl)⟩⟩

/-- C19: on a node with a left child, where the node and the left child have
correct stored height and size, `leftRotation` undoes `rightRotation`; on a
node with a right child, where the node and the right child have correct
stored height and size, `rightRotation` undoes `leftRotation`. -/
theorem single_rotations_inverse (n : RAVL_Node V) :
    (leftChild n ≠ NULL → fieldsOk n → fieldsOk (leftChild n) →
      leftRotation (rightRotation n) = n) ∧
    (rightChild n ≠ NULL → fieldsOk n → fieldsOk (rightChild n) →
      rightRotation (leftRotation n) = n) := by
  constructor
  · intro hc hn hl
    rcases n with _ | ⟨k, v, h, s, l, r⟩
    · exact absurd rfl hc
    · rcases l with _ | ⟨tk, tv, th, ts, tl, tr⟩
      · exact absurd rfl hc
      · obtain ⟨hn1, hn2⟩ := hn
        obtain ⟨hl1, hl2⟩ := hl
        change h = 1 + max th (height r) at hn1
        change s = 1 + ts + size r at hn2
        change th = 1 + max (height tl) (height tr) at hl1
        change ts = 1 + size tl + size tr at hl2
        rw [rightRotation_node, leftRotation_node]
        subst hl1 hl2 hn1 hn2
        rfl
  · intro hc hn hr
    rcases n with _ | ⟨k, v, h, s, l, r⟩
    · exact absurd rfl hc
    · rcases r with _ | ⟨tk, tv, th, ts, tl, tr⟩
      · exact absurd rfl hc
      · obtain ⟨hn1, hn2⟩ := hn
        obtain ⟨hr1, hr2⟩ := hr
        change h = 1 + max (height l) th at hn1
        change s = 1 + size l + ts at hn2
        change th = 1 + max (height tl) (height tr) at hr1
        change ts = 1 + size tl + size tr at hr2
        rw [leftRotation_node, rightRotation_node]
        subst hr1 hr2 hn1 hn2
        rfl

/-- C19, at the scenario tree, which has both children and correct metrics. -/
theorem single_rotations_inverse_witness :
    (leftChild exampleTree ≠ NULL ∧ fieldsOk exampleTree ∧
      fieldsOk (leftChild exampleTree) ∧
      leftRotation (rightRotation exampleTree) = exampleTree) ∧
    (rightChild exampleTree ≠ NULL ∧ fieldsOk exampleTree ∧
      fieldsOk (rightChild exampleTree) ∧
      rightRotation (leftRotation exampleTree) = exampleTree) :=
  have h0 : fieldsOk exampleTree := by simp [fieldsOk, exampleTree, height, size]
  have h1 : leftChild exampleTree ≠ NULL := by simp [leftChild, exampleTree]
  have h2 : fieldsOk (leftChild exampleTree) := by
    simp [fieldsOk, leftChild, exampleTree, height, size]
  have h3 : rightChild exampleTree ≠ NULL := by simp [rightChild, exampleTree]
  have h4 : fieldsOk (rightChild exampleTree) := by
    simp [fieldsOk, rightChild, exampleTree, height, size]
  ⟨⟨h1, h0, h2, (single_rotations_inverse exampleTree).1 h1 h0 h2⟩,
   ⟨h3, h0, h4, (single_rotations_inverse exampleTree).2 h3 h0 h4⟩⟩

/-! ### `balanceTree` and `successor` -/

/-- When the refreshed node is left-heavy by more than 1 and its left child has
balance factor 0, or right-heavy by more than 1 and its right child has
balance factor 0, `balanceTree` returns the refreshed node without rotating:
no branch of lines 186-199 is taken. -/
theorem balanceTree_child_factor_zero (k : Int) (v : V) (h s : Int) (l r : RAVL_Node V)
    (hz : (height l - height r > 1 ∧ balanceFactor l = 0) ∨
          (height l - height r < -1 ∧ balanceFactor r = 0)) :
    balanceTree (node k v h s l r) = updateSize (updateHeight (node k v h s l r)) := by
  unfold balanceTree
  rw [refresh_node]
  simp only [balanceFactor_node]
  rcases hz with ⟨h1, h2⟩ | ⟨h1, h2⟩
  · rw [h2]
    have e1 : ¬ (height l - height r < -1) := by omega
    simp [e1]
  · rw [h2]
    have e1 : ¬ (height l - height r > 1) := by omega
    simp [e1]

/-- C14: on `deletionTree` the refreshed node has balance 2 and its left child
has balance factor 0; `balanceTree` returns the refreshed node itself, which is
not its single right rotation.  On the mirror image the balance is -2, the
right child has balance factor 0, and the result is not the single left
rotation. -/
theorem balanceTree_zero_child_not_rotated :
    (balanceFactor (updateSize (updateHeight deletionTree)) = 2 ∧
      balanceFactor (leftChild (updateSize (updateHeight deletionTree))) = 0 ∧
      balanceTree deletionTree = updateSize (updateHeight deletionTree) ∧
      balanceTree deletionTree ≠ rightRotation (updateSize (updateHeight deletionTree))) ∧
    (balanceFactor (updateSize (updateHeight deletionTreeMirror)) = -2 ∧
      balanceFactor (rightChild (updateSize (updateHeight deletionTreeMirror))) = 0 ∧
      balanceTree deletionTreeMirror = updateSize (updateHeight deletionTreeMirror) ∧
      balanceTree deletionTreeMirror
        ≠ leftRotation (updateSize (updateHeight deletionTreeMirror))) := by
  have h1 : balanceTree deletionTree = updateSize (updateHeight deletionTree) :=
    balanceTree_child_factor_zero _ _ _ _ _ _ (Or.inl (by decide))
  have h2 : balanceTree deletionTreeMirror = updateSize (updateHeight deletionTreeMirror) :=
    balanceTree_child_factor_zero _ _ _ _ _ _ (Or.inr (by decide))
  refine ⟨⟨by decide, by decide, h1, ?_⟩, ⟨by decide, by decide, h2, ?_⟩⟩
  · rw [h1]
    decide
  · rw [h2]
    decide

/-- C15: both subtrees of `deletionTree` have correct metrics, are balanced
and in BST order, the tree is in BST order at its root and its subtree heights
differ by 2 with the taller child of balance factor 0; the tree `balanceTree`
returns is not balanced.  The same on the mirror image. -/
theorem balanceTree_zero_child_unbalanced :
    (metricsOk (leftChild deletionTree) ∧ balanced (leftChild deletionTree) ∧
      metricsOk (rightChild deletionTree) ∧ balanced (rightChild deletionTree) ∧
      BST deletionTree ∧
      height (leftChild deletionTree) - height (rightChild deletionTree) = 2 ∧
      balanceFactor (leftChild deletionTree) = 0 ∧
      ¬ balanced (balanceTree deletionTree)) ∧
    (metricsOk (leftChild deletionTreeMirror) ∧ balanced (leftChild deletionTreeMirror) ∧
      metricsOk (rightChild deletionTreeMirror) ∧ balanced (rightChild deletionTreeMirror) ∧
      BST deletionTreeMirror ∧
      height (leftChild deletionTreeMirror) - height (rightChild deletionTreeMirror) = -2 ∧
      balanceFactor (rightChild deletionTreeMirror) = 0 ∧
      ¬ balanced (balanceTree deletionTreeMirror)) := by
  have h1 : balanceTree deletionTree = updateSize (updateHeight deletionTree) :=
    balanceTree_child_factor_zero _ _ _ _ _ _ (Or.inl (by decide))
  have h2 : balanceTree deletionTreeMirror = updateSize (updateHeight deletionTreeMirror) :=
    balanceTree_child_factor_zero _ _ _ _ _ _ (Or.inr (by decide))
  constructor
  · rw [h1]
    simp [deletionTree, leftChild, rightChild, metricsOk, fieldsOk, balanced, BST, keys,
      height, size, balanceFactor, updateHeight, updateSize]
  · rw [h2]
    simp [deletionTreeMirror, leftChild, rightChild, metricsOk, fieldsOk, balanced, BST, keys,
      height, size, balanceFactor, updateHeight, updateSize]

/-- The loop of `successor` computes the parent of the leftmost node. -/
theorem successorLoop_eq_leftmostParent (t p : RAVL_Node V) :
    successorLoop t p = leftmostParent t p := by
  induction t generalizing p with
  | NULL => rfl
  | node k v h s l r ihl _ =>
    cases l with
    | NULL => rfl
    | node lk lv lh ls ll lr =>
      simp only [successorLoop, leftmostParent]
      exact ihl _

/-- When the right child has a left child, `successor` returns the parent of
the leftmost node of the right subtree. -/
theorem successor_deep (k : Int) (v : V) (h s : Int) (l : RAVL_Node V) (rk : Int) (rv : V)
    (rh rs : Int) (lk : Int) (lv : V) (lh ls : Int) (ll lr rr : RAVL_Node V) :
    successor (node k v h s l (node rk rv rh rs (node lk lv lh ls ll lr) rr))
      = some (leftmostParent (node rk rv rh rs (node lk lv lh ls ll lr) rr)
          (node k v h s l (node rk rv rh rs (node lk lv lh ls ll lr) rr))) := by
  simp only [successor, successorLoop, leftmostParent, successorLoop_eq_leftmostParent]

/-- When the right child has no left child, `successor` returns the right
child. -/
theorem successor_shallow (k : Int) (v : V) (h s : Int) (l : RAVL_Node V) (rk : Int) (rv : V)
    (rh rs : Int) (rr : RAVL_Node V) :
    successor (node k v h s l (node rk rv rh rs NULL rr)) = some (node rk rv rh rs NULL rr) := by
  simp only [successor, successorLoop]

/-- C20: on the node of key 5 whose right child, of key 8, has no left child,
the leftmost node of the right subtree is the right child and its parent is
the node of key 5 itself, while `successor` returns the right child.  On the
scenario tree, whose right child 8 has the left child 7, `successor` returns
the node of key 8, the parent of key 7. -/
theorem successor_returns_right_child :
    leftmost (rightChild (node 5 (50 : Nat) 2 2 NULL (node 8 80 1 1 NULL NULL)))
      = node 8 80 1 1 NULL NULL ∧
    leftmostParent (rightChild (node 5 (50 : Nat) 2 2 NULL (node 8 80 1 1 NULL NULL)))
        (node 5 (50 : Nat) 2 2 NULL (node 8 80 1 1 NULL NULL))
      = node 5 50 2 2 NULL (node 8 80 1 1 NULL NULL) ∧
    successor (node 5 (50 : Nat) 2 2 NULL (node 8 80 1 1 NULL NULL))
      = some (node 8 80 1 1 NULL NULL) ∧
    successor (node 5 (50 : Nat) 2 2 NULL (node 8 80 1 1 NULL NULL))
      ≠ some (node 5 50 2 2 NULL (node 8 80 1 1 NULL NULL)) ∧
    successor exampleTree = some (rightChild exampleTree) ∧
    leftmostParent (rightChild exampleTree) exampleTree = rightChild exampleTree := by
  refine ⟨rfl, rfl, successor_shallow _ _ _ _ _ _ _ _ _ _, ?_, rfl, rfl⟩
  rw [successor_shallow]
  decide

end RAVL
